import Mathlib

/-!
Shallow embedding of the core of zhutony/wireguard-rs:
the peer-server packet dispatcher and timer handler
(src/interface/peer_server.rs), the key material (src/types/keys.rs)
and the UDP codec (src/udp/frame.rs).

Machine bytes are modelled as natural numbers in a list; multi-byte
integers are read and written little-endian exactly as the source does
via the byteorder crate.  A Rust panic (unwrap, expect, assert!,
unimplemented!, out-of-bounds index) is modelled by the outcome
constructor Outcome.abort, since a panic aborts the process.
The external snow AEAD is modelled abstractly: a transport ciphertext
records the key and the nonce under which it was produced and decrypts
exactly when they match the session key and the receiving nonce set on
the session; a handshake response authenticates exactly when it equals
the 48-byte blob the pending handshake state expects.
-/

abbrev Bytes := List Nat

/-- Little-endian read of a 32-bit integer from the first four bytes of a
slice, as byteorder LittleEndian.read_u32 does. -/
def read_u32_le (l : Bytes) : Nat :=
  l.getD 0 0 + 256 * l.getD 1 0 + 256 ^ 2 * l.getD 2 0 + 256 ^ 3 * l.getD 3 0

/-- Little-endian read of a 64-bit integer from the first eight bytes of a
slice, as byteorder LittleEndian.read_u64 does. -/
def read_u64_le (l : Bytes) : Nat :=
  l.getD 0 0 + 256 * l.getD 1 0 + 256 ^ 2 * l.getD 2 0 + 256 ^ 3 * l.getD 3 0
  + 256 ^ 4 * l.getD 4 0 + 256 ^ 5 * l.getD 5 0 + 256 ^ 6 * l.getD 6 0
  + 256 ^ 7 * l.getD 7 0

/-- Little-endian encoding of a 32-bit integer into four bytes, as
byteorder LittleEndian.write_u32 does. -/
def u32_le (n : Nat) : Bytes :=
  [n % 256, n / 256 % 256, n / 256 ^ 2 % 256, n / 256 ^ 3 % 256]

/-- Little-endian encoding of a 64-bit integer into eight bytes, as
byteorder LittleEndian.write_u64 does. -/
def u64_le (n : Nat) : Bytes :=
  [n % 256, n / 256 % 256, n / 256 ^ 2 % 256, n / 256 ^ 3 % 256,
   n / 256 ^ 4 % 256, n / 256 ^ 5 % 256, n / 256 ^ 6 % 256, n / 256 ^ 7 % 256]

/-- Overwrite the bytes of a buffer starting at a position, as the
byteorder writes into a mutable slice of the packet buffer do. -/
def writeBytes : Bytes → Nat → Bytes → Bytes
  | buf, _, [] => buf
  | buf, p, v :: vs => writeBytes (buf.set p v) (p + 1) vs

/-- A 32-byte secret or public key value with its 32-bit identifier
(src/types/keys.rs, struct Key). -/
structure Key where
  key : Bytes
  id : Nat
deriving DecidableEq, Repr

/-- A session key pair (src/types/keys.rs, struct KeyPair): initiator
flag, send key, receive key.  The birth Instant is real time and is not
consulted by any of the embedded logic, so it is omitted. -/
structure KeyPair where
  initiator : Bool
  send : Key
  recv : Key
deriving DecidableEq, Repr

/-- KeyPair.local_id returns the identifier of the receive key
(src/types/keys.rs). -/
def KeyPair.local_id (kp : KeyPair) : Nat :=
  kp.recv.id

/-- Model of a snow noise object in handshake mode.  Modelled from the
spec: the snow crate is external to the repository; read_message on a
pending initiator state authenticates exactly the expected 48-byte
response blob and reports the length of the authenticated payload, and
finalizing the handshake yields a transport session keyed by
session_key. -/
structure HandshakeState where
  expected_response : Bytes
  payload_len : Nat
  session_key : Nat
deriving DecidableEq, Repr

/-- Handshake-mode read_message: succeeds with the authenticated payload
length exactly when the input blob authenticates. -/
def HandshakeState.read_message (hs : HandshakeState) (input : Bytes) : Option Nat :=
  if input = hs.expected_response then some hs.payload_len else none

/-- Model of a snow noise object in transport mode.  Modelled from the
spec: the snow crate is external; the session holds a key and the two
nonce counters. -/
structure TransportState where
  key : Nat
  sending_nonce : Nat
  receiving_nonce : Nat
deriving DecidableEq, Repr

/-- Transport-mode set_receiving_nonce. -/
def TransportState.set_receiving_nonce (ts : TransportState) (n : Nat) : TransportState :=
  { ts with receiving_nonce := n }

/-- Transport-mode read_message: a ciphertext records the key and nonce
under which it was produced; decryption succeeds, yielding the payload,
exactly when they match the session key and the receiving nonce. -/
def TransportState.read_message (ts : TransportState) (ct : Bytes) : Option Bytes :=
  match ct with
  | k :: n :: payload => if k = ts.key ∧ n = ts.receiving_nonce then some payload else none
  | _ => none

/-- Transport-mode write_message: AEAD-encrypts the plaintext under the
session key and the current sending nonce and advances the nonce. -/
def TransportState.write_message (ts : TransportState) (plain : Bytes) : Bytes × TransportState :=
  (ts.key :: ts.sending_nonce :: plain, { ts with sending_nonce := ts.sending_nonce + 1 })

/-- A noise object is either still in handshake mode or finalized into
transport mode. -/
inductive Noise where
  | handshake : HandshakeState → Noise
  | transport : TransportState → Noise
deriving DecidableEq, Repr

/-- Modelled from the spec: a session slot of the peer (src/peer.rs is
not under src/): the noise object together with the locally chosen
session index and the index the remote side chose. -/
structure Session where
  noise : Noise
  our_index : Nat
  their_index : Nat
deriving DecidableEq, Repr

/-- Modelled from the spec: the three rotating session slots of a peer
(next in-progress, current active, past superseded). -/
structure Sessions where
  next : Option Session
  current : Option Session
  past : Option Session
deriving DecidableEq, Repr

/-- Model of std::net::IpAddr: a v4 address as four octets or a v6
address as eight 16-bit segments. -/
inductive IpAddr where
  | v4 : Nat → Nat → Nat → Nat → IpAddr
  | v6 : Nat → Nat → Nat → Nat → Nat → Nat → Nat → Nat → IpAddr
deriving DecidableEq, Repr

/-- Model of std::net::SocketAddr: an IP address and a port. -/
structure SocketAddr where
  ip : IpAddr
  port : Nat
deriving DecidableEq, Repr

/-- Modelled from the spec: the static peer configuration (public key,
optional pre-shared key, optional endpoint address). -/
structure PeerInfo where
  pub_key : Bytes
  psk : Option Bytes
  endpoint : Option SocketAddr
deriving DecidableEq, Repr

/-- Modelled from the spec: a peer holds its configuration, the three
session slots, and the transmitted and received byte counters. -/
structure Peer where
  info : PeerInfo
  sessions : Sessions
  tx_bytes : Nat
  rx_bytes : Nat
deriving DecidableEq, Repr

/-- Modelled from the spec: accessor for the noise object of the pending
next session (used as peer.next_noise() in peer_server.rs); available
exactly when a next slot exists and is still in handshake mode. -/
def Peer.next_noise (p : Peer) : Option HandshakeState :=
  match p.sessions.next with
  | some s =>
    match s.noise with
    | Noise.handshake hs => some hs
    | Noise.transport _ => none
  | none => none

/-- Modelled from the spec: accessor for the transport noise object of
the current session (used as peer.current_noise() in peer_server.rs). -/
def Peer.current_noise (p : Peer) : Option TransportState :=
  match p.sessions.current with
  | some s =>
    match s.noise with
    | Noise.transport ts => some ts
    | Noise.handshake _ => none
  | none => none

/-- Modelled from the spec: accessor for the transport noise object of
the past session (used as peer.past_noise() in peer_server.rs). -/
def Peer.past_noise (p : Peer) : Option TransportState :=
  match p.sessions.past with
  | some s =>
    match s.noise with
    | Noise.transport ts => some ts
    | Noise.handshake _ => none
  | none => none

/-- Modelled from the spec: complete_handshake / ratchet_session
finalizes the key pair in the next slot into transport mode and rotates
current to past and next to current; this is the only way current
changes.  Fails when there is no pending next handshake. -/
def Peer.ratchet_session (p : Peer) : Option Peer :=
  match p.sessions.next with
  | none => none
  | some s =>
    match s.noise with
    | Noise.transport _ => none
    | Noise.handshake hs =>
      let ts : TransportState :=
        { key := hs.session_key, sending_nonce := 0, receiving_nonce := 0 }
      let finalized : Session := { s with noise := Noise.transport ts }
      some { p with sessions :=
             { next := none, current := some finalized, past := p.sessions.current } }

/-- Modelled from the spec: the index the remote peer chose for the
current session (used as peer.their_current_index() in the keepalive
path). -/
def Peer.their_current_index (p : Peer) : Option Nat :=
  match p.sessions.current with
  | some s => some s.their_index
  | none => none

/-- Modelled from the spec: begin_handshake / set_next_session installs a
fresh pending handshake state in the next slot under a newly chosen local
session index. -/
def Peer.set_next_session (p : Peer) (hs : HandshakeState) (idx : Nat) : Peer :=
  { p with sessions := { p.sessions with
      next := some { noise := Noise.handshake hs, our_index := idx, their_index := 0 } } }

/-- Modelled from the spec: the locally chosen index of the pending next
session (used as peer.our_next_index() in the rekey path). -/
def Peer.our_next_index (p : Peer) : Option Nat :=
  match p.sessions.next with
  | some s => some s.our_index
  | none => none

/-- Replace the transport noise object stored in the current session,
modelling the in-place mutation through the borrowed noise reference in
the transport receive path. -/
def Peer.set_current_noise (p : Peer) (ts : TransportState) : Peer :=
  match p.sessions.current with
  | some s => { p with sessions := { p.sessions with
      current := some { s with noise := Noise.transport ts } } }
  | none => p

/-- Replace the transport noise object stored in the past session,
modelling the in-place mutation through the borrowed noise reference in
the transport fallback path. -/
def Peer.set_past_noise (p : Peer) (ts : TransportState) : Peer :=
  match p.sessions.past with
  | some s => { p with sessions := { p.sessions with
      past := some { s with noise := Noise.transport ts } } }
  | none => p

/-- Modelled from the spec: building the handshake-initiation wire bytes,
type byte 1, reserved bytes, then the sender index at offset 4
(peer.get_handshake_packet() lives in src/peer.rs, not under src/). -/
def Peer.get_handshake_packet (p : Peer) : Bytes :=
  [1, 0, 0, 0] ++ u32_le (p.our_next_index.getD 0)

/-- The error kinds named by the specification (section 7).  The embedded
handlers never construct any of them: the source has no error-surfacing
path, which is what several claims are settled against. -/
inductive WgError where
  | UnknownSessionIndex : WgError
  | HandshakeFailed : WgError
  | DecryptFailed : WgError
  | NoActiveSession : WgError
  | HandshakeInProgress : WgError
deriving DecidableEq, Repr

/-- Outcome of running a handler: a normal return, a surfaced error (the
channel the spec describes; unused by the code), or a Rust panic, which
aborts the process and therefore carries no state. -/
inductive Outcome (α : Type) where
  | ok : α → Outcome α
  | err : WgError → Outcome α
  | abort : Outcome α
deriving DecidableEq, Repr

/-- A timer event (enum TimerMessage in peer_server.rs); the shared peer
reference is modelled as the index of the peer in the state arena. -/
inductive TimerMessage where
  | Rekey : Nat → TimerMessage
  | KeepAlive : Nat → TimerMessage
deriving DecidableEq, Repr

/-- A timer task spawned on the reactor: the single-shot rekey sleep or
the recurring keepalive interval, with its delay or period in seconds and
the peer it concerns. -/
inductive SpawnedTimer where
  | rekeySingleShot : Nat → Nat → SpawnedTimer
  | keepAliveInterval : Nat → Nat → SpawnedTimer
deriving DecidableEq, Repr

/-- Modelled from the spec and the tokio-timer semantics: the n-th
message a spawned timer task ever sends into the timer queue.  A
single-shot sleep fires once, sending one Rekey message and nothing
afterwards; an interval ticks forever, sending KeepAlive each tick. -/
def SpawnedTimer.emission : SpawnedTimer → Nat → Option TimerMessage
  | SpawnedTimer.rekeySingleShot _ p, n =>
    if n = 0 then some (TimerMessage.Rekey p) else none
  | SpawnedTimer.keepAliveInterval _ p, _ => some (TimerMessage.KeepAlive p)

/-- Modelled from the spec: REKEY_AFTER_TIME from the consts module (the
module is not under src/), the fixed rekey delay in seconds. -/
def REKEY_AFTER_TIME : Nat := 120

/-- Modelled from the spec: KEEPALIVE_TIMEOUT from the consts module (the
module is not under src/), the fixed keepalive period in seconds. -/
def KEEPALIVE_TIMEOUT : Nat := 10

/-- The externally observable effects of one handler invocation:
plaintexts forwarded to the tunnel, datagrams handed to the UDP sink,
and timer tasks spawned on the reactor. -/
structure Effects where
  tunnelOut : List Bytes
  udpOut : List (SocketAddr × Bytes)
  timersSpawned : List SpawnedTimer
deriving DecidableEq, Repr

/-- No effects. -/
def Effects.nil : Effects :=
  { tunnelOut := [], udpOut := [], timersSpawned := [] }

/-- Concatenation of effects of successive handler invocations. -/
def Effects.append (a b : Effects) : Effects :=
  { tunnelOut := a.tunnelOut ++ b.tunnelOut
    udpOut := a.udpOut ++ b.udpOut
    timersSpawned := a.timersSpawned ++ b.timersSpawned }

/-- The interface-wide configuration consulted by the rekey path; only
the local private key is used by the embedded code. -/
structure InterfaceInfo where
  private_key : Option Bytes
deriving DecidableEq, Repr

/-- The shared state behind the Rc<RefCell<..>> in peer_server.rs: the
peer arena (a shared peer reference is an index into it), the index map
from local session index to peer, and a counter modelling the random
choice of fresh session indices. -/
structure State where
  interface_info : InterfaceInfo
  peers : List Peer
  index_map : List (Nat × Nat)
  rng_next_index : Nat
deriving DecidableEq, Repr

/-- Write back a mutated peer into the arena. -/
def State.setPeer (st : State) (pid : Nat) (p : Peer) : State :=
  { st with peers := st.peers.set pid p }

/-- The type=2 arm of PeerServer::handle_incoming_packet
(src/interface/peer_server.rs): read the sender index at offset 4 and the
receiver index at offset 8 (little-endian), unwrap the index-map lookup
(panicking when the index is unknown), overwrite their_index on the next
session before authentication, feed packet bytes 12..60 into the pending
handshake state (unwrap panics on authentication failure), assert a
zero-length payload, ratchet the sessions and spawn the single-shot
rekey sleep and the recurring keepalive interval. -/
def handle_handshake_response (st : State) (packet : Bytes) : Outcome (State × Effects) :=
  if packet.length < 8 then Outcome.abort else
  let their_index := read_u32_le (packet.drop 4)
  if packet.length < 12 then Outcome.abort else
  let our_index := read_u32_le (packet.drop 8)
  match st.index_map.lookup our_index with
  | none => Outcome.abort
  | some pid =>
    match st.peers[pid]? with
    | none => Outcome.abort
    | some peer =>
      match peer.sessions.next with
      | none => Outcome.abort
      | some nextSession =>
        let peer := { peer with sessions := { peer.sessions with
            next := some { nextSession with their_index := their_index } } }
        match peer.next_noise with
        | none => Outcome.abort
        | some hs =>
          if packet.length < 60 then Outcome.abort else
          match hs.read_message ((packet.drop 12).take 48) with
          | none => Outcome.abort
          | some payload_len =>
            if payload_len = 0 then
              match peer.ratchet_session with
              | none => Outcome.abort
              | some peer2 =>
                Outcome.ok (st.setPeer pid peer2,
                  { tunnelOut := []
                    udpOut := []
                    timersSpawned := [SpawnedTimer.rekeySingleShot REKEY_AFTER_TIME pid,
                                      SpawnedTimer.keepAliveInterval KEEPALIVE_TIMEOUT pid] })
            else Outcome.abort

/-- The type=4 arm of PeerServer::handle_incoming_packet
(src/interface/peer_server.rs): read the receiver index at offset 4 and
the nonce at offset 8, look the index up (silently falling through when
it is absent), add the whole datagram length to rx_bytes before any
decryption, decrypt bytes 16.. against the current session with the
carried nonce, retry against the past session on failure (expect panics
when the past session is absent or also fails), and forward the
decrypted payload to the tunnel. -/
def handle_transport (st : State) (packet : Bytes) : Outcome (State × Effects) :=
  if packet.length < 8 then Outcome.abort else
  let our_index_received := read_u32_le (packet.drop 4)
  if packet.length < 16 then Outcome.abort else
  let nonce := read_u64_le (packet.drop 8)
  match st.index_map.lookup our_index_received with
  | none => Outcome.ok (st, Effects.nil)
  | some pid =>
    match st.peers[pid]? with
    | none => Outcome.abort
    | some peer =>
      let peer := { peer with rx_bytes := peer.rx_bytes + packet.length }
      match peer.current_noise with
      | none => Outcome.abort
      | some cts =>
        let cts := cts.set_receiving_nonce nonce
        let peer := peer.set_current_noise cts
        match cts.read_message (packet.drop 16) with
        | some payload =>
          Outcome.ok (st.setPeer pid peer,
            { tunnelOut := [payload], udpOut := [], timersSpawned := [] })
        | none =>
          match peer.past_noise with
          | none => Outcome.abort
          | some pts =>
            let pts := pts.set_receiving_nonce nonce
            let peer := peer.set_past_noise pts
            match pts.read_message (packet.drop 16) with
            | some payload =>
              Outcome.ok (st.setPeer pid peer,
                { tunnelOut := [payload], udpOut := [], timersSpawned := [] })
            | none => Outcome.abort

/-- PeerServer::handle_incoming_packet (src/interface/peer_server.rs):
dispatch on the first byte of the datagram; type 1 only logs, type 2 is
the handshake-response arm, type 4 is the transport arm, and every other
type byte hits the unimplemented arm and panics.  Reading the first byte
of an empty datagram also panics.  The source ignores the sender
address. -/
def handle_incoming_packet (st : State) (_addr : SocketAddr) (packet : Bytes) :
    Outcome (State × Effects) :=
  match packet with
  | [] => Outcome.abort
  | t :: _ =>
    if t = 1 then Outcome.ok (st, Effects.nil)
    else if t = 2 then handle_handshake_response st packet
    else if t = 4 then handle_transport st packet
    else Outcome.abort

/-- Modelled from the spec: building a fresh initiator handshake state
via the snow NoiseBuilder from the local private key, the remote public
key and the pre-shared key.  The concrete handshake cryptography is
external to the repository, so the pending state carries abstract
placeholder attributes derived from the inputs. -/
def mkInitiator (localPriv remotePub psk : Bytes) : HandshakeState :=
  { expected_response := localPriv ++ remotePub ++ psk
    payload_len := 0
    session_key := (localPriv ++ remotePub ++ psk).length }

/-- PeerServer::handle_timer (src/interface/peer_server.rs).  Rekey:
build a fresh initiator handshake (expect panics when the private key or
the pre-shared key is missing), install it as the next session, register
its index in the index map, and send the handshake-initiation packet to
the peer endpoint (unwrap panics when no endpoint is configured).
KeepAlive: allocate a 1500-byte buffer, set type byte 4, add the whole
1500-byte buffer length to tx_bytes, write the remote index at offset 4
and the sending nonce at offset 8, encrypt the empty payload at offset
16, truncate the buffer to ciphertext length plus 16, and send it. -/
def handle_timer (st : State) (msg : TimerMessage) : Outcome (State × Effects) :=
  match msg with
  | TimerMessage.Rekey pid =>
    match st.peers[pid]? with
    | none => Outcome.abort
    | some peer =>
      match st.interface_info.private_key with
      | none => Outcome.abort
      | some priv =>
        match peer.info.psk with
        | none => Outcome.abort
        | some psk =>
          let noise := mkInitiator priv peer.info.pub_key psk
          let peer := peer.set_next_session noise st.rng_next_index
          match peer.our_next_index with
          | none => Outcome.abort
          | some ourIdx =>
            let st2 := { st with index_map := (ourIdx, pid) :: st.index_map
                                 rng_next_index := st.rng_next_index + 1 }
            let init_packet := peer.get_handshake_packet
            match peer.info.endpoint with
            | none => Outcome.abort
            | some ep =>
              Outcome.ok (st2.setPeer pid peer,
                { tunnelOut := [], udpOut := [(ep, init_packet)], timersSpawned := [] })
  | TimerMessage.KeepAlive pid =>
    match st.peers[pid]? with
    | none => Outcome.abort
    | some peer =>
      let buf1 := (List.replicate 1500 0).set 0 4
      match peer.their_current_index with
      | none => Outcome.abort
      | some their_index =>
        match peer.info.endpoint with
        | none => Outcome.abort
        | some ep =>
          let peer := { peer with tx_bytes := peer.tx_bytes + buf1.length }
          match peer.current_noise with
          | none => Outcome.abort
          | some ts =>
            let buf2 := writeBytes buf1 4 (u32_le their_index)
            let buf3 := writeBytes buf2 8 (u64_le ts.sending_nonce)
            let enc := ts.write_message []
            let peer := peer.set_current_noise enc.2
            let buf4 := writeBytes buf3 16 enc.1
            let pkt := buf4.take (enc.1.length + 16)
            Outcome.ok (st.setPeer pid peer,
              { tunnelOut := [], udpOut := [(ep, pkt)], timersSpawned := [] })

/-- PeerServer::handle_outgoing_packet (src/interface/peer_server.rs):
only logs; the outgoing-plaintext path is unimplemented. -/
def handle_outgoing_packet (st : State) (_packet : Bytes) : Outcome (State × Effects) :=
  Outcome.ok (st, Effects.nil)

/-- The three ready-queues the poll loop drains, in their source order:
timer messages, inbound datagrams, locally originated plaintext.  A
queue is modelled as the list of items it will yield before reporting
Async::NotReady. -/
structure Queues where
  timer_rx : List TimerMessage
  udp_stream : List (SocketAddr × Bytes)
  outgoing_rx : List Bytes
deriving DecidableEq, Repr

/-- The first loop of PeerServer::poll: pop timer messages and handle
each until the queue reports NotReady. -/
def drain_timers (st : State) (eff : Effects) : List TimerMessage → Outcome (State × Effects)
  | [] => Outcome.ok (st, eff)
  | m :: rest =>
    match handle_timer st m with
    | Outcome.ok (st2, e2) => drain_timers st2 (eff.append e2) rest
    | Outcome.err e => Outcome.err e
    | Outcome.abort => Outcome.abort

/-- The second loop of PeerServer::poll: pop inbound datagrams and handle
each until the stream reports NotReady. -/
def drain_udp (st : State) (eff : Effects) : List (SocketAddr × Bytes) → Outcome (State × Effects)
  | [] => Outcome.ok (st, eff)
  | (addr, packet) :: rest =>
    match handle_incoming_packet st addr packet with
    | Outcome.ok (st2, e2) => drain_udp st2 (eff.append e2) rest
    | Outcome.err e => Outcome.err e
    | Outcome.abort => Outcome.abort

/-- The third loop of PeerServer::poll: pop outgoing plaintexts and
handle each until the queue reports NotReady. -/
def drain_outgoing (st : State) (eff : Effects) : List Bytes → Outcome (State × Effects)
  | [] => Outcome.ok (st, eff)
  | packet :: rest =>
    match handle_outgoing_packet st packet with
    | Outcome.ok (st2, e2) => drain_outgoing st2 (eff.append e2) rest
    | Outcome.err e => Outcome.err e
    | Outcome.abort => Outcome.abort

/-- PeerServer::poll (src/interface/peer_server.rs): drain the timer
queue, then the UDP stream, then the outgoing queue, each to exhaustion,
and only then return Async::NotReady; an ok outcome is that NotReady
return, carrying the state and accumulated effects at suspension. -/
def poll (st : State) (q : Queues) : Outcome (State × Effects) :=
  match drain_timers st Effects.nil q.timer_rx with
  | Outcome.ok (st1, e1) =>
    match drain_udp st1 e1 q.udp_stream with
    | Outcome.ok (st2, e2) => drain_outgoing st2 e2 q.outgoing_rx
    | Outcome.err e => Outcome.err e
    | Outcome.abort => Outcome.abort
  | Outcome.err e => Outcome.err e
  | Outcome.abort => Outcome.abort

/-- An event drawn from one of the three queues, used to state the
drain-order property of the poll loop. -/
inductive Event where
  | timer : TimerMessage → Event
  | inbound : SocketAddr → Bytes → Event
  | outgoing : Bytes → Event
deriving DecidableEq, Repr

/-- Dispatch one event to its handler. -/
def handle_event (st : State) : Event → Outcome (State × Effects)
  | Event.timer m => handle_timer st m
  | Event.inbound addr packet => handle_incoming_packet st addr packet
  | Event.outgoing packet => handle_outgoing_packet st packet

/-- Sequential processing of a list of events, accumulating effects and
stopping at the first abort. -/
def run_events (st : State) (eff : Effects) : List Event → Outcome (State × Effects)
  | [] => Outcome.ok (st, eff)
  | e :: rest =>
    match handle_event st e with
    | Outcome.ok (st2, e2) => run_events st2 (eff.append e2) rest
    | Outcome.err er => Outcome.err er
    | Outcome.abort => Outcome.abort

/-- The flattened event list of the three queues in the priority order
the spec states: timers first, then inbound datagrams, then outgoing
plaintext. -/
def Queues.priorityEvents (q : Queues) : List Event :=
  q.timer_rx.map Event.timer
    ++ q.udp_stream.map (fun p => Event.inbound p.1 p.2)
    ++ q.outgoing_rx.map Event.outgoing

/-- Ipv4Addr::to_ipv6_mapped from the standard library: the v4-mapped
v6 address ::ffff:a.b.c.d of an IPv4 address. -/
def to_ipv6_mapped (a b c d : Nat) : IpAddr :=
  IpAddr.v6 0 0 0 0 0 65535 (256 * a + b) (256 * c + d)

/-- Ipv6Addr::to_ipv4 from the standard library: defined on the
v4-compatible and v4-mapped forms, recovering the four octets from the
last two segments. -/
def to_ipv4 (s0 s1 s2 s3 s4 s5 s6 s7 : Nat) : Option IpAddr :=
  if s0 = 0 ∧ s1 = 0 ∧ s2 = 0 ∧ s3 = 0 ∧ s4 = 0 ∧ (s5 = 0 ∨ s5 = 65535) then
    some (IpAddr.v4 (s6 / 256) (s6 % 256) (s7 / 256) (s7 % 256))
  else none

/-- VecUdpCodec::decode (src/udp/frame.rs): un-map a v6 source address
to v4 when Ipv6Addr::to_ipv4 succeeds, keep it otherwise, keep the port,
and copy the datagram buffer unchanged.  The io::Result is always Ok. -/
def VecUdpCodec.decode (src : SocketAddr) (buf : Bytes) : SocketAddr × Bytes :=
  let unmapped_ip :=
    match src.ip with
    | IpAddr.v6 s0 s1 s2 s3 s4 s5 s6 s7 =>
      match to_ipv4 s0 s1 s2 s3 s4 s5 s6 s7 with
      | some v4addr => v4addr
      | none => IpAddr.v6 s0 s1 s2 s3 s4 s5 s6 s7
    | v4addr => v4addr
  (⟨unmapped_ip, src.port⟩, buf)

/-- VecUdpCodec::encode (src/udp/frame.rs): append the payload to the
write buffer unchanged and return the destination address with a v4
address replaced by its v6-mapped form. -/
def VecUdpCodec.encode (msg : SocketAddr × Bytes) (buf : Bytes) : Bytes × SocketAddr :=
  let addr := msg.1
  let buf2 := buf ++ msg.2
  let mapped_ip :=
    match addr.ip with
    | IpAddr.v4 a b c d => to_ipv6_mapped a b c d
    | v6addr => v6addr
  (buf2, { addr with ip := mapped_ip })

/-- A concrete socket address used by the concrete test states. -/
def testAddr : SocketAddr :=
  { ip := IpAddr.v4 10 0 0 1, port := 51820 }

/-- A concrete pending handshake state: it authenticates the 48-byte
blob of nines, carries a zero-length payload and finalizes to transport
key 77. -/
def testHandshake : HandshakeState :=
  { expected_response := List.replicate 48 9, payload_len := 0, session_key := 77 }

/-- A concrete peer with a pending next handshake, a current transport
session under key 5 and a past transport session under key 6. -/
def testPeer : Peer :=
  let curTs : TransportState := { key := 5, sending_nonce := 0, receiving_nonce := 0 }
  let pastTs : TransportState := { key := 6, sending_nonce := 0, receiving_nonce := 0 }
  { info := { pub_key := [7], psk := some [8], endpoint := some testAddr }
    sessions :=
      { next := some { noise := Noise.handshake testHandshake, our_index := 3, their_index := 0 }
        current := some { noise := Noise.transport curTs, our_index := 1, their_index := 11 }
        past := some { noise := Noise.transport pastTs, our_index := 2, their_index := 12 } }
    tx_bytes := 0
    rx_bytes := 0 }

/-- A concrete shared state: one peer, whose three session indices 1, 2
and 3 are registered in the index map. -/
def testState : State :=
  { interface_info := { private_key := some [1] }
    peers := [testPeer]
    index_map := [(1, 0), (2, 0), (3, 0)]
    rng_next_index := 100 }

/-- A handshake-response datagram whose receiver index 55 is not in the
index map of testState. -/
def pktUnknownIndexHs : Bytes :=
  [2, 0, 0, 0] ++ u32_le 99 ++ u32_le 55 ++ List.replicate 48 0

/-- A transport datagram for session index 2 of testState whose
ciphertext was produced under key 99, matching neither the current key 5
nor the past key 6. -/
def pktBothFail : Bytes :=
  [4, 0, 0, 0] ++ u32_le 2 ++ u64_le 7 ++ [99, 7, 1]

/-- A transport datagram whose receiver index 55 is not in the index map
of testState. -/
def pktUnknownIndexTr : Bytes :=
  [4, 0, 0, 0] ++ u32_le 55 ++ u64_le 7 ++ [1, 2]

/-- A transport datagram for session index 2 of testState encrypted
under key 6 with nonce 7: the current session (key 5) rejects it and the
past session (key 6) accepts it, yielding payload [42]. -/
def pktPastSession : Bytes :=
  [4, 0, 0, 0] ++ u32_le 2 ++ u64_le 7 ++ [6, 7, 42]

/-- A well-formed handshake-response datagram for testState: receiver
index 3 resolves to the peer, and bytes 12..60 are the blob its pending
handshake expects. -/
def pktGoodHs : Bytes :=
  [2, 0, 0, 0] ++ u32_le 99 ++ u32_le 3 ++ List.replicate 48 9

/-- The transmitted-byte counter of the peer a successful handler
outcome left in the arena at the given index. -/
def txOf (o : Outcome (State × Effects)) (pid : Nat) : Option Nat :=
  match o with
  | Outcome.ok (st, _) =>
    match st.peers[pid]? with
    | some p => some p.tx_bytes
    | none => none
  | _ => none

/-- The lengths of the datagrams a successful handler outcome handed to
the UDP sink. -/
def sentLensOf (o : Outcome (State × Effects)) : Option (List Nat) :=
  match o with
  | Outcome.ok (_, eff) => some (eff.udpOut.map (fun m => m.2.length))
  | _ => none

theorem current_noise_update_rx (p : Peer) (n : Nat) :
    ({ p with rx_bytes := n } : Peer).current_noise = p.current_noise :=
  rfl

theorem past_noise_update_rx (p : Peer) (n : Nat) :
    ({ p with rx_bytes := n } : Peer).past_noise = p.past_noise :=
  rfl

theorem past_noise_set_current (p : Peer) (ts : TransportState) :
    (p.set_current_noise ts).past_noise = p.past_noise := by
  cases hc : p.sessions.current <;>
    simp [Peer.set_current_noise, Peer.past_noise, hc]

/-- A handshake-response datagram whose receiver index 3 resolves to the
peer but whose 48-byte payload (zeros) does not authenticate against the
pending handshake (which expects nines). -/
def pktBadAuthHs : Bytes :=
  [2, 0, 0, 0] ++ u32_le 99 ++ u32_le 3 ++ List.replicate 48 0

/-- A second both-sessions-fail transport datagram, via session index 1,
with ciphertext key 50. -/
def pktBothFail2 : Bytes :=
  [4, 0, 0, 0] ++ u32_le 1 ++ u64_le 3 ++ [50, 3]

/-- A second unknown-index transport datagram, via absent index 77. -/
def pktUnknownIndexTr2 : Bytes :=
  [4, 0, 0, 0] ++ u32_le 77 ++ u64_le 0

theorem dispatch_type2 (st : State) (addr : SocketAddr) (rest : Bytes) :
    handle_incoming_packet st addr (2 :: rest) = handle_handshake_response st (2 :: rest) :=
  rfl

theorem dispatch_type4 (st : State) (addr : SocketAddr) (rest : Bytes) :
    handle_incoming_packet st addr (4 :: rest) = handle_transport st (4 :: rest) :=
  rfl

/-- C1.  The claim says a type=2 datagram with an unknown receiver index
or a failing authentication surfaces HandshakeFailed and is dropped
without side effects.  The code instead unwraps the failing lookup and
the failing read_message, so the process aborts: at a concrete datagram
whose receiver index 55 is not in the table, handling is a panic and in
particular is not a surfaced HandshakeFailed error. -/
theorem C1_counterexample :
    handle_incoming_packet testState testAddr pktUnknownIndexHs = Outcome.abort
    ∧ handle_incoming_packet testState testAddr pktUnknownIndexHs
        ≠ Outcome.err WgError.HandshakeFailed := by
  constructor
  · rfl
  · decide

/-- C1 (amended).  For every inbound type=2 datagram, if the receiver
index read at offset 8 is not in the index map, or the 48-byte payload
at offsets 12..60 fails authentication against the pending handshake
state, the handler panics and the process aborts; no HandshakeFailed
error value is ever surfaced. -/
theorem C1_handshake_failure_panics (st : State) (addr : SocketAddr) (packet : Bytes)
    (hhead : packet.head? = some 2) :
    (12 ≤ packet.length →
      st.index_map.lookup (read_u32_le (packet.drop 8)) = none →
      handle_incoming_packet st addr packet = Outcome.abort)
    ∧ (∀ (pid : Nat) (peer : Peer) (nextS : Session) (hs : HandshakeState),
      st.index_map.lookup (read_u32_le (packet.drop 8)) = some pid →
      st.peers[pid]? = some peer →
      peer.sessions.next = some nextS →
      nextS.noise = Noise.handshake hs →
      60 ≤ packet.length →
      (packet.drop 12).take 48 ≠ hs.expected_response →
      handle_incoming_packet st addr packet = Outcome.abort) := by
  obtain ⟨rest, rfl⟩ : ∃ rest, packet = 2 :: rest := by
    cases packet with
    | nil => simp at hhead
    | cons t r =>
      simp only [List.head?, Option.some.injEq] at hhead
      exact ⟨r, by rw [hhead]⟩
  constructor
  · intro _hlen hlook
    rw [dispatch_type2]
    simp only [List.drop_succ_cons] at hlook
    simp [handle_handshake_response, hlook]
  · intro pid peer nextS hs hlook hpeer hnext hnoise _hlen hblob
    rw [dispatch_type2]
    simp only [List.drop_succ_cons] at hlook hblob
    simp [handle_handshake_response, hlook, hpeer, hnext, Peer.next_noise, hnoise,
          HandshakeState.read_message, hblob]

/-- C1 (witness): the amended theorem applied to a concrete datagram
whose payload fails authentication. -/
theorem C1_witness :
    handle_incoming_packet testState testAddr pktBadAuthHs = Outcome.abort :=
  (C1_handshake_failure_panics testState testAddr pktBadAuthHs rfl).2
    0 testPeer
    { noise := Noise.handshake testHandshake, our_index := 3, their_index := 0 }
    testHandshake (by decide) (by decide) (by decide) rfl (by decide) (by decide)

/-- C2.  The claim says a transport datagram failing AEAD decryption
against both the current and the past session is dropped without
counting and a non-fatal DecryptFailed is emitted.  The code instead
calls expect on the second failing read_message, so the process aborts:
at a concrete datagram whose ciphertext matches neither session key,
handling is a panic and in particular not a surfaced DecryptFailed. -/
theorem C2_counterexample :
    handle_incoming_packet testState testAddr pktBothFail = Outcome.abort
    ∧ handle_incoming_packet testState testAddr pktBothFail
        ≠ Outcome.err WgError.DecryptFailed := by
  constructor
  · rfl
  · decide

/-- C2 (amended).  For every inbound type=4 datagram addressed to a
known peer whose ciphertext fails AEAD decryption against both the
current session and the past session, the handler panics and the
process aborts; no DecryptFailed error value is surfaced (and the
received-byte counter update preceding decryption dies with the
process). -/
theorem C2_decrypt_both_fail_panics (st : State) (addr : SocketAddr) (packet : Bytes)
    (pid : Nat) (peer : Peer) (curS pastS : Session) (cts pts : TransportState)
    (hhead : packet.head? = some 4)
    (hlook : st.index_map.lookup (read_u32_le (packet.drop 4)) = some pid)
    (hpeer : st.peers[pid]? = some peer)
    (hcurS : peer.sessions.current = some curS)
    (hcurN : curS.noise = Noise.transport cts)
    (hfail1 : (cts.set_receiving_nonce (read_u64_le (packet.drop 8))).read_message
        (packet.drop 16) = none)
    (hpastS : peer.sessions.past = some pastS)
    (hpastN : pastS.noise = Noise.transport pts)
    (hfail2 : (pts.set_receiving_nonce (read_u64_le (packet.drop 8))).read_message
        (packet.drop 16) = none) :
    handle_incoming_packet st addr packet = Outcome.abort := by
  obtain ⟨rest, rfl⟩ : ∃ rest, packet = 4 :: rest := by
    cases packet with
    | nil => simp at hhead
    | cons t r =>
      simp only [List.head?, Option.some.injEq] at hhead
      exact ⟨r, by rw [hhead]⟩
  rw [dispatch_type4]
  simp only [List.drop_succ_cons] at hlook hfail1 hfail2
  simp [handle_transport, hlook, hpeer, Peer.current_noise, Peer.past_noise,
        Peer.set_current_noise, hcurS, hcurN, hpastS, hpastN, hfail1, hfail2]

/-- C2 (witness): the amended theorem applied to a concrete datagram
whose ciphertext key 50 matches neither the current key 5 nor the past
key 6. -/
theorem C2_witness :
    handle_incoming_packet testState testAddr pktBothFail2 = Outcome.abort :=
  C2_decrypt_both_fail_panics testState testAddr pktBothFail2 0 testPeer
    { noise := Noise.transport { key := 5, sending_nonce := 0, receiving_nonce := 0 }
      our_index := 1, their_index := 11 }
    { noise := Noise.transport { key := 6, sending_nonce := 0, receiving_nonce := 0 }
      our_index := 2, their_index := 12 }
    { key := 5, sending_nonce := 0, receiving_nonce := 0 }
    { key := 6, sending_nonce := 0, receiving_nonce := 0 }
    rfl (by decide) (by decide) (by decide) rfl (by decide) (by decide) rfl (by decide)

/-- C3.  The claim says a transport datagram with an unknown receiver
index yields an UnknownSessionIndex error.  The code instead falls
through an if-let with no else arm: at a concrete datagram referencing
absent index 55, handling returns normally with the state unchanged and
no effects, and no UnknownSessionIndex error is surfaced. -/
theorem C3_counterexample :
    handle_incoming_packet testState testAddr pktUnknownIndexTr
        = Outcome.ok (testState, Effects.nil)
    ∧ handle_incoming_packet testState testAddr pktUnknownIndexTr
        ≠ Outcome.err WgError.UnknownSessionIndex := by
  constructor
  · rfl
  · decide

/-- C3 (amended).  For every inbound type=4 datagram whose receiver
index is absent from the index map, handling returns normally with no
state mutation and no effects; the packet is silently ignored and no
error of any kind is surfaced. -/
theorem C3_unknown_index_silent (st : State) (addr : SocketAddr) (packet : Bytes)
    (hhead : packet.head? = some 4)
    (hlen : 16 ≤ packet.length)
    (hlook : st.index_map.lookup (read_u32_le (packet.drop 4)) = none) :
    handle_incoming_packet st addr packet = Outcome.ok (st, Effects.nil) := by
  obtain ⟨rest, rfl⟩ : ∃ rest, packet = 4 :: rest := by
    cases packet with
    | nil => simp at hhead
    | cons t r =>
      simp only [List.head?, Option.some.injEq] at hhead
      exact ⟨r, by rw [hhead]⟩
  rw [dispatch_type4]
  simp only [List.drop_succ_cons] at hlook
  simp only [List.length_cons] at hlen
  have h8 : ¬(rest.length + 1 < 8) := by omega
  have h16 : ¬(rest.length + 1 < 16) := by omega
  simp [handle_transport, h8, h16, hlook]

/-- C3 (witness): the amended theorem applied to a concrete datagram
referencing absent index 77. -/
theorem C3_witness :
    handle_incoming_packet testState testAddr pktUnknownIndexTr2
        = Outcome.ok (testState, Effects.nil) :=
  C3_unknown_index_silent testState testAddr pktUnknownIndexTr2 rfl (by decide) (by decide)

/-- C4.  The claim says a failure while processing any datagram or
timer event is isolated and never stops the poll loop or aborts the
process.  The code dispatches unrecognized type bytes, including the
cookie-reply type 3, to an unimplemented arm that panics: handling a
concrete type=3 datagram aborts, and a poll cycle whose UDP queue holds
that datagram aborts the loop with it. -/
theorem C4_counterexample :
    handle_incoming_packet testState testAddr [3, 0, 0, 0] = Outcome.abort
    ∧ poll testState
        { timer_rx := [], udp_stream := [(testAddr, [3, 0, 0, 0])], outgoing_rx := [] }
        = Outcome.abort := by
  constructor
  · rfl
  · rfl

/-- C4 (amended).  Failures are not isolated to the triggering event:
every inbound datagram whose type byte is not 1, 2 or 4 (cookie-reply
type 3 included) panics in the dispatcher, and the panic propagates out
of the poll cycle that processes it, aborting the process. -/
theorem C4_unhandled_type_panics (st : State) (addr : SocketAddr) (t : Nat) (rest : Bytes)
    (h1 : t ≠ 1) (h2 : t ≠ 2) (h4 : t ≠ 4) :
    handle_incoming_packet st addr (t :: rest) = Outcome.abort
    ∧ poll st { timer_rx := [], udp_stream := [(addr, t :: rest)], outgoing_rx := [] }
        = Outcome.abort := by
  have hh : handle_incoming_packet st addr (t :: rest) = Outcome.abort := by
    simp [handle_incoming_packet, h1, h2, h4]
  exact ⟨hh, by simp [poll, drain_timers, drain_udp, hh]⟩

/-- C4 (witness): the amended theorem applied to a concrete datagram
with unrecognized type byte 7. -/
theorem C4_witness :
    handle_incoming_packet testState testAddr [7] = Outcome.abort
    ∧ poll testState
        { timer_rx := [], udp_stream := [(testAddr, [7])], outgoing_rx := [] }
        = Outcome.abort :=
  C4_unhandled_type_panics testState testAddr 7 [] (by decide) (by decide) (by decide)

set_option maxRecDepth 100000 in
/-- C5.  The claim says byte counters move by the exact wire size of
each transport packet, keepalives included.  In the keepalive path the
code adds packet.len() to tx_bytes while the packet is still the full
1500-byte scratch buffer and only afterwards truncates it to the wire
size (16-byte header plus the AEAD tag of the empty payload): firing a
keepalive for the test peer adds 1500 to tx_bytes while the datagram
actually handed to the UDP sink is 18 bytes long (16-byte header plus
the 2-byte abstract tag standing in for the real 16-byte tag). -/
theorem C5_keepalive_counts_buffer_not_wire :
    txOf (handle_timer testState (TimerMessage.KeepAlive 0)) 0 = some 1500
    ∧ sentLensOf (handle_timer testState (TimerMessage.KeepAlive 0)) = some [18]
    ∧ (1500 : Nat) ≠ 18 := by
  refine ⟨rfl, rfl, by decide⟩

/-- C6.  For every inbound type=4 datagram addressed to a known peer,
decryption is attempted against the current session under the nonce
carried at offset 8; exactly when that attempt fails authentication it
is retried against the past session (the past session is untouched when
the current attempt succeeds); and after a session rotation the prior
current session sits in the past slot, so a packet encrypted under it
still decrypts. -/
theorem C6_current_then_past_fallback (st : State) (addr : SocketAddr) (packet : Bytes)
    (pid : Nat) (peer : Peer) (curS pastS : Session) (cts pts : TransportState)
    (k : Nat) (plain : Bytes)
    (hhead : packet.head? = some 4)
    (hlen : 16 ≤ packet.length)
    (hlook : st.index_map.lookup (read_u32_le (packet.drop 4)) = some pid)
    (hpeer : st.peers[pid]? = some peer)
    (hcurS : peer.sessions.current = some curS)
    (hcurN : curS.noise = Noise.transport cts)
    (hpastS : peer.sessions.past = some pastS)
    (hpastN : pastS.noise = Noise.transport pts)
    (hct : packet.drop 16 = k :: read_u64_le (packet.drop 8) :: plain) :
    (k = cts.key →
      handle_incoming_packet st addr packet =
        Outcome.ok (st.setPeer pid
          (({ peer with rx_bytes := peer.rx_bytes + packet.length }).set_current_noise
            (cts.set_receiving_nonce (read_u64_le (packet.drop 8)))),
          { tunnelOut := [plain], udpOut := [], timersSpawned := [] }))
    ∧ (k ≠ cts.key → k = pts.key →
      handle_incoming_packet st addr packet =
        Outcome.ok (st.setPeer pid
          ((({ peer with rx_bytes := peer.rx_bytes + packet.length }).set_current_noise
              (cts.set_receiving_nonce (read_u64_le (packet.drop 8)))).set_past_noise
            (pts.set_receiving_nonce (read_u64_le (packet.drop 8)))),
          { tunnelOut := [plain], udpOut := [], timersSpawned := [] }))
    ∧ (∀ q q2 : Peer, q.ratchet_session = some q2 →
        q2.sessions.past = q.sessions.current) := by
  obtain ⟨rest, rfl⟩ : ∃ rest, packet = 4 :: rest := by
    cases packet with
    | nil => simp at hhead
    | cons t r =>
      simp only [List.head?, Option.some.injEq] at hhead
      exact ⟨r, by rw [hhead]⟩
  simp only [List.drop_succ_cons] at hlook hct
  simp only [List.length_cons] at hlen
  have h8 : ¬(rest.length + 1 < 8) := by omega
  have h16 : ¬(rest.length + 1 < 16) := by omega
  refine ⟨?_, ?_, ?_⟩
  · intro hk
    rw [dispatch_type4]
    simp [handle_transport, h8, h16, hlook, hpeer, Peer.current_noise, hcurS, hcurN,
          hct, TransportState.read_message, TransportState.set_receiving_nonce, hk,
          Peer.set_current_noise, State.setPeer]
  · intro hk hk2
    subst hk2
    rw [dispatch_type4]
    simp [handle_transport, h8, h16, hlook, hpeer, Peer.current_noise, Peer.past_noise,
          hcurS, hcurN, hpastS, hpastN, hct, TransportState.read_message,
          TransportState.set_receiving_nonce, hk, Peer.set_current_noise,
          Peer.set_past_noise, State.setPeer]
  · intro q q2 hr
    cases hnext : q.sessions.next with
    | none => simp [Peer.ratchet_session, hnext] at hr
    | some s =>
      cases hn : s.noise with
      | handshake hs =>
        simp [Peer.ratchet_session, hnext, hn] at hr
        simp [← hr]
      | transport ts =>
        simp [Peer.ratchet_session, hnext, hn] at hr

/-- C6 (witness): the fallback branch applied to a concrete datagram
encrypted under the past session key 6 with nonce 7; the current session
(key 5) rejects it and the past session accepts it, yielding payload
[42]. -/
theorem C6_witness :
    handle_incoming_packet testState testAddr pktPastSession =
      Outcome.ok (testState.setPeer 0
        ((({ testPeer with rx_bytes := testPeer.rx_bytes + pktPastSession.length
           }).set_current_noise
            (TransportState.set_receiving_nonce
              { key := 5, sending_nonce := 0, receiving_nonce := 0 }
              (read_u64_le (pktPastSession.drop 8)))).set_past_noise
          (TransportState.set_receiving_nonce
            { key := 6, sending_nonce := 0, receiving_nonce := 0 }
            (read_u64_le (pktPastSession.drop 8)))),
        { tunnelOut := [[42]], udpOut := [], timersSpawned := [] }) :=
  (C6_current_then_past_fallback testState testAddr pktPastSession 0 testPeer
    { noise := Noise.transport { key := 5, sending_nonce := 0, receiving_nonce := 0 }
      our_index := 1, their_index := 11 }
    { noise := Noise.transport { key := 6, sending_nonce := 0, receiving_nonce := 0 }
      our_index := 2, their_index := 12 }
    { key := 5, sending_nonce := 0, receiving_nonce := 0 }
    { key := 6, sending_nonce := 0, receiving_nonce := 0 }
    6 [42]
    rfl (by decide) (by decide) (by decide) rfl (by decide) rfl (by decide)
    (by decide)).2.1 (by decide) (by decide)

theorem run_events_append (l1 : List Event) :
    ∀ (st : State) (eff : Effects) (l2 : List Event),
    run_events st eff (l1 ++ l2) =
      match run_events st eff l1 with
      | Outcome.ok (st2, e2) => run_events st2 e2 l2
      | Outcome.err e => Outcome.err e
      | Outcome.abort => Outcome.abort := by
  induction l1 with
  | nil => intro st eff l2; simp [run_events]
  | cons e l ih =>
    intro st eff l2
    simp only [List.cons_append, run_events]
    cases handle_event st e with
    | ok p =>
      cases p with
      | mk st2 e2 => simp [ih]
    | err er => simp
    | abort => simp

theorem drain_timers_eq (l : List TimerMessage) :
    ∀ (st : State) (eff : Effects),
    drain_timers st eff l = run_events st eff (l.map Event.timer) := by
  induction l with
  | nil => intro st eff; simp [drain_timers, run_events]
  | cons m rest ih =>
    intro st eff
    simp only [List.map_cons, drain_timers, run_events, handle_event]
    cases handle_timer st m with
    | ok p => cases p with | mk st2 e2 => simp [ih]
    | err er => simp
    | abort => simp

theorem drain_udp_eq (l : List (SocketAddr × Bytes)) :
    ∀ (st : State) (eff : Effects),
    drain_udp st eff l = run_events st eff (l.map (fun p => Event.inbound p.1 p.2)) := by
  induction l with
  | nil => intro st eff; simp [drain_udp, run_events]
  | cons m rest ih =>
    intro st eff
    cases m with
    | mk addr packet =>
      simp only [List.map_cons, drain_udp, run_events, handle_event]
      cases handle_incoming_packet st addr packet with
      | ok p => cases p with | mk st2 e2 => simp [ih]
      | err er => simp
      | abort => simp

theorem drain_outgoing_eq (l : List Bytes) :
    ∀ (st : State) (eff : Effects),
    drain_outgoing st eff l = run_events st eff (l.map Event.outgoing) := by
  induction l with
  | nil => intro st eff; simp [drain_outgoing, run_events]
  | cons m rest ih =>
    intro st eff
    simp only [List.map_cons, drain_outgoing, run_events, handle_event]
    cases handle_outgoing_packet st m with
    | ok p => cases p with | mk st2 e2 => simp [ih]
    | err er => simp
    | abort => simp

/-- C7.  Each poll cycle drains its three ready-queues in the fixed
priority order timer events, then inbound datagrams, then local
plaintext, each to exhaustion before the next is touched, and the
NotReady return (the ok outcome) happens only once every queued event
has been processed: poll is exactly the sequential processing of the
concatenated priority-ordered event list. -/
theorem C7_poll_drains_in_priority_order (st : State) (q : Queues) :
    poll st q = run_events st Effects.nil q.priorityEvents := by
  cases q with
  | mk ts us os =>
    simp only [poll, Queues.priorityEvents, List.append_assoc]
    rw [drain_timers_eq, run_events_append]
    cases h1 : run_events st Effects.nil (ts.map Event.timer) with
    | ok p =>
      cases p with
      | mk st1 e1 =>
        simp only
        rw [drain_udp_eq, run_events_append]
        cases h2 : run_events st1 e1 (us.map fun p => Event.inbound p.1 p.2) with
        | ok p2 =>
          cases p2 with
          | mk st2 e2 => simp only; rw [drain_outgoing_eq]
        | err er => simp
        | abort => simp
    | err er => simp
    | abort => simp

/-- C8.  For every inbound type=2 datagram: the sender index is read
little-endian at offset 4 and the receiver index at offset 8, the peer
is found through the receiver index, exactly the 48 bytes at offsets
12..60 are fed to the pending handshake state, and when they
authenticate with a zero-length payload the sessions rotate (next
finalized into current, current into past, sender index recorded);
when the authenticated payload length is nonzero the assert fails
instead and no rotation happens. -/
theorem C8_handshake_response_offsets_and_rotation (st : State) (addr : SocketAddr)
    (packet : Bytes) (pid : Nat) (peer : Peer) (nextS : Session) (hs : HandshakeState)
    (hhead : packet.head? = some 2)
    (hlen : 60 ≤ packet.length)
    (hlook : st.index_map.lookup (read_u32_le (packet.drop 8)) = some pid)
    (hpeer : st.peers[pid]? = some peer)
    (hnext : peer.sessions.next = some nextS)
    (hnoise : nextS.noise = Noise.handshake hs)
    (hauth : (packet.drop 12).take 48 = hs.expected_response) :
    (hs.payload_len = 0 →
      handle_incoming_packet st addr packet =
        Outcome.ok (st.setPeer pid
          { peer with sessions :=
            { next := none
              current := some { noise := Noise.transport { key := hs.session_key, sending_nonce := 0, receiving_nonce := 0 }, our_index := nextS.our_index, their_index := read_u32_le (packet.drop 4) }
              past := peer.sessions.current } },
          { tunnelOut := []
            udpOut := []
            timersSpawned := [SpawnedTimer.rekeySingleShot REKEY_AFTER_TIME pid,
                              SpawnedTimer.keepAliveInterval KEEPALIVE_TIMEOUT pid] }))
    ∧ (hs.payload_len ≠ 0 →
      handle_incoming_packet st addr packet = Outcome.abort) := by
  obtain ⟨rest, rfl⟩ : ∃ rest, packet = 2 :: rest := by
    cases packet with
    | nil => simp at hhead
    | cons t r =>
      simp only [List.head?, Option.some.injEq] at hhead
      exact ⟨r, by rw [hhead]⟩
  simp only [List.drop_succ_cons] at hlook hauth
  simp only [List.length_cons] at hlen
  have h8 : ¬(rest.length + 1 < 8) := by omega
  have h12 : ¬(rest.length + 1 < 12) := by omega
  have h60 : ¬(rest.length + 1 < 60) := by omega
  constructor
  · intro hz
    rw [dispatch_type2]
    simp [handle_handshake_response, h8, h12, h60, hlook, hpeer, hnext,
          Peer.next_noise, hnoise, HandshakeState.read_message, hauth, hz,
          Peer.ratchet_session, State.setPeer]
  · intro hz
    rw [dispatch_type2]
    simp [handle_handshake_response, h8, h12, h60, hlook, hpeer, hnext,
          Peer.next_noise, hnoise, HandshakeState.read_message, hauth, hz]

/-- C8 (witness): the rotation branch applied to a concrete well-formed
handshake-response datagram for the test peer. -/
theorem C8_witness :
    handle_incoming_packet testState testAddr pktGoodHs =
      Outcome.ok (testState.setPeer 0
        { testPeer with sessions :=
          { next := none
            current := some { noise := Noise.transport { key := testHandshake.session_key, sending_nonce := 0, receiving_nonce := 0 }, our_index := 3, their_index := read_u32_le (pktGoodHs.drop 4) }
            past := testPeer.sessions.current } },
        { tunnelOut := []
          udpOut := []
          timersSpawned := [SpawnedTimer.rekeySingleShot REKEY_AFTER_TIME 0,
                            SpawnedTimer.keepAliveInterval KEEPALIVE_TIMEOUT 0] }) :=
  (C8_handshake_response_offsets_and_rotation testState testAddr pktGoodHs 0 testPeer
    { noise := Noise.handshake testHandshake, our_index := 3, their_index := 0 }
    testHandshake rfl (by decide) (by decide) (by decide) rfl rfl (by decide)).1 rfl

/-- C9.  Every successful type=2 handling (a handshake completion)
spawns exactly one single-shot rekey timer, delayed by the fixed
REKEY_AFTER_TIME, together with the recurring keepalive interval, and
the single-shot rekey timer emits the Rekey message for that peer on
its first and only firing and nothing ever after. -/
theorem C9_rekey_single_shot_once (st : State) (addr : SocketAddr) (packet : Bytes)
    (st2 : State) (eff : Effects) (pid : Nat)
    (hhead : packet.head? = some 2)
    (hlook : st.index_map.lookup (read_u32_le (packet.drop 8)) = some pid)
    (hok : handle_incoming_packet st addr packet = Outcome.ok (st2, eff)) :
    eff.timersSpawned = [SpawnedTimer.rekeySingleShot REKEY_AFTER_TIME pid,
                         SpawnedTimer.keepAliveInterval KEEPALIVE_TIMEOUT pid]
    ∧ SpawnedTimer.emission (SpawnedTimer.rekeySingleShot REKEY_AFTER_TIME pid)
        = fun n => if n = 0 then some (TimerMessage.Rekey pid) else none := by
  refine ⟨?_, rfl⟩
  obtain ⟨rest, rfl⟩ : ∃ rest, packet = 2 :: rest := by
    cases packet with
    | nil => simp at hhead
    | cons t r =>
      simp only [List.head?, Option.some.injEq] at hhead
      exact ⟨r, by rw [hhead]⟩
  rw [dispatch_type2] at hok
  simp only [handle_handshake_response] at hok
  repeat' split at hok
  all_goals simp_all
  obtain ⟨hst, heff⟩ := hok
  subst heff
  rfl

/-- C10.  The frame.rs codec: encode appends the payload bytes to the
write buffer unchanged and rewrites an IPv4 destination to its
IPv6-mapped form; decode maps an IPv6-mapped source address back to the
original IPv4 address, keeping the buffer unchanged; hence decoding the
encoding of any IPv4-addressed message (with valid octets) is the
identity on address and payload. -/
theorem C10_codec_v4_mapping_roundtrip (a b c d port : Nat) (payload buf : Bytes)
    (_ha : a < 256) (hb : b < 256) (_hc : c < 256) (hd : d < 256) :
    VecUdpCodec.encode ({ ip := IpAddr.v4 a b c d, port := port }, payload) buf
      = (buf ++ payload, { ip := to_ipv6_mapped a b c d, port := port })
    ∧ VecUdpCodec.decode { ip := to_ipv6_mapped a b c d, port := port } payload
      = ({ ip := IpAddr.v4 a b c d, port := port }, payload)
    ∧ VecUdpCodec.decode
        (VecUdpCodec.encode ({ ip := IpAddr.v4 a b c d, port := port }, payload) []).2
        (VecUdpCodec.encode ({ ip := IpAddr.v4 a b c d, port := port }, payload) []).1
      = ({ ip := IpAddr.v4 a b c d, port := port }, payload) := by
  have hdec : VecUdpCodec.decode { ip := to_ipv6_mapped a b c d, port := port } payload
      = ({ ip := IpAddr.v4 a b c d, port := port }, payload) := by
    simp only [VecUdpCodec.decode, to_ipv6_mapped, to_ipv4]
    rw [if_pos (by simp)]
    have e1 : (256 * a + b) / 256 = a := by omega
    have e2 : (256 * a + b) % 256 = b := by omega
    have e3 : (256 * c + d) / 256 = c := by omega
    have e4 : (256 * c + d) % 256 = d := by omega
    simp [e1, e2, e3, e4]
  refine ⟨by simp [VecUdpCodec.encode], hdec, ?_⟩
  simpa [VecUdpCodec.encode] using hdec

/-- C10 (witness): the codec theorem applied to a concrete IPv4 address
and payload. -/
theorem C10_witness :
    VecUdpCodec.encode ({ ip := IpAddr.v4 93 184 216 34, port := 1234 }, [1, 2, 3]) [9]
      = ([9] ++ [1, 2, 3], { ip := to_ipv6_mapped 93 184 216 34, port := 1234 })
    ∧ VecUdpCodec.decode { ip := to_ipv6_mapped 93 184 216 34, port := 1234 } [1, 2, 3]
      = ({ ip := IpAddr.v4 93 184 216 34, port := 1234 }, [1, 2, 3])
    ∧ VecUdpCodec.decode
        (VecUdpCodec.encode ({ ip := IpAddr.v4 93 184 216 34, port := 1234 }, [1, 2, 3]) []).2
        (VecUdpCodec.encode ({ ip := IpAddr.v4 93 184 216 34, port := 1234 }, [1, 2, 3]) []).1
      = ({ ip := IpAddr.v4 93 184 216 34, port := 1234 }, [1, 2, 3]) :=
  C10_codec_v4_mapping_roundtrip 93 184 216 34 1234 [1, 2, 3] [9]
    (by decide) (by decide) (by decide) (by decide)

/-- C9 (witness): the single-shot rekey theorem applied to the concrete
successful handshake-response handling of pktGoodHs. -/
theorem C9_witness :
    (Effects.mk [] []
      [SpawnedTimer.rekeySingleShot REKEY_AFTER_TIME 0,
       SpawnedTimer.keepAliveInterval KEEPALIVE_TIMEOUT 0]).timersSpawned
      = [SpawnedTimer.rekeySingleShot REKEY_AFTER_TIME 0,
         SpawnedTimer.keepAliveInterval KEEPALIVE_TIMEOUT 0] :=
  (C9_rekey_single_shot_once testState testAddr pktGoodHs
    (testState.setPeer 0
      { testPeer with sessions :=
        { next := none
          current := some { noise := Noise.transport { key := testHandshake.session_key, sending_nonce := 0, receiving_nonce := 0 }, our_index := 3, their_index := read_u32_le (pktGoodHs.drop 4) }
          past := testPeer.sessions.current } })
    (Effects.mk [] []
      [SpawnedTimer.rekeySingleShot REKEY_AFTER_TIME 0,
       SpawnedTimer.keepAliveInterval KEEPALIVE_TIMEOUT 0])
    0 rfl (by decide) (by decide)).1
